import Mathlib

/-!
Verification of the colour model conversion engine of WildQt
(src/WildQt/b.py: classes Colour, LAColour, LAMColour).

The Python floats are embedded as exact rationals, Python lists of channel
values as Lean lists of rationals, Python strings as Lean strings.  A Python
int(x) truncation toward zero is pyInt, the Python float mod (a % b) is pyMod.
Functions that can raise in Python return an Option: none models a raised
exception escaping the function.

The rational embedding is exact where the program computes in IEEE doubles.
Statements in this file are therefore confined to paths whose results the
float program reproduces without rounding (integer-valued stores and
re-reads, control flow on exactly representable comparisons); where a
universal statement would be true of the exact model but false of the float
program — the HSV round trip, whose truncations sit right at integer
boundaries, and safety conditions for the CMYK division, whose zero test
absorbs tiny magnitudes in floats — no such statement is made, and the
relevant definitions carry a comment on the divergence.
-/

/-- Python int() applied to a float: truncation toward zero. -/
def pyInt (q : ℚ) : ℤ := if q < 0 then ⌈q⌉ else ⌊q⌋

/-- Python float modulo a % b (for b > 0): a - b * floor (a / b). -/
def pyMod (a b : ℚ) : ℚ := a - b * ⌊a / b⌋

/-- One lowercase hex digit, as produced by the Python format specifier 02x
(Nat.digitChar maps 0-9 to the digit characters and 10-15 to a-f, matching
Python lowercase hex). -/
def pyHex2 (n : ℕ) : List Char :=
  List.replicate (2 - (Nat.toDigits 16 n).length) '0' ++ Nat.toDigits 16 n

/-- The Python format 02x applied to an int: nonnegative values are printed
as at least two lowercase hex digits left-padded with 0; negative values are
printed as a minus sign followed by the unpadded hex digits of the absolute
value (the width 2 is already consumed by the sign). -/
def fmt02x (i : ℤ) : List Char :=
  if i < 0 then '-' :: Nat.toDigits 16 i.natAbs else pyHex2 i.toNat

/-- Value of one hex digit character, as accepted by Python int(s, 16) on
plain digits: the decimal digits, and the letters a-f in either case (the
caller in b.py line 183 has already lowercased the input, so the uppercase
range is unreachable there). -/
def hexDigitVal (c : Char) : Option ℕ :=
  if 48 ≤ c.toNat ∧ c.toNat ≤ 57 then some (c.toNat - 48)
  else if 97 ≤ c.toNat ∧ c.toNat ≤ 102 then some (c.toNat - 87)
  else if 65 ≤ c.toNat ∧ c.toNat ≤ 70 then some (c.toNat - 55)
  else none

/-- Python int(s, 16) on a two-character slice: none models the ValueError
raised on a character that is not a hex digit. -/
def hexPairVal (a b : Char) : Option ℕ :=
  match hexDigitVal a, hexDigitVal b with
  | some x, some y => some (16 * x + y)
  | _, _ => none

/-- The Colour enumeration of b.py lines 32-39. -/
inductive Colour where
  | RGB | RGBFull | HSV | HEX | HEXLONG | CMY | CMYK
deriving DecidableEq, Repr

/-- Values returned by the Python methods: a list of numbers, a string, or
the Python value None (returned by a method that falls off its end). -/
inductive PyVal where
  | list (xs : List ℚ)
  | str (s : String)
  | pyNone
deriving DecidableEq, Repr

/-- Inputs to set: a sequence of numbers or a string. -/
inductive PyIn where
  | nums (xs : List ℚ)
  | str (s : String)
deriving DecidableEq, Repr

/-- The state of an LAColour object: the four entries of the list
self._colour (always of length 4 in the source: it is initialised to four
entries and every assignment stores four entries), together with the
construction-time _colour_space and _clamp_values attributes. -/
structure LAState where
  c0 : ℚ
  c1 : ℚ
  c2 : ℚ
  c3 : ℚ
  colourSpace : Colour
  clampValues : Bool
deriving DecidableEq, Repr

namespace LAColour

/-- LAColour._clamp (b.py lines 109-110). -/
def clamp (st : LAState) (val minVal maxVal : ℚ) : ℚ :=
  if st.clampValues then max (min val maxVal) minVal else val

/-- LAColour._getRGB (b.py lines 112-113): returns self._colour. -/
def getRGB (st : LAState) : PyVal := .list [st.c0, st.c1, st.c2, st.c3]

/-- LAColour._setRGB (b.py lines 115-116): clamps each of r, g, b, a to the
unit interval and stores them. -/
def setRGB (st : LAState) (r g b a : ℚ) : LAState :=
  { st with c0 := clamp st r 0 1, c1 := clamp st g 0 1,
            c2 := clamp st b 0 1, c3 := clamp st a 0 1 }

/-- LAColour._getRGBFull (b.py lines 118-121): int(x * 255) on the first
three channels, alpha appended unscaled. -/
def getRGBFull (st : LAState) : PyVal :=
  .list [(pyInt (st.c0 * 255) : ℚ), (pyInt (st.c1 * 255) : ℚ),
         (pyInt (st.c2 * 255) : ℚ), st.c3]

/-- LAColour._setRGBFull (b.py lines 123-124). -/
def setRGBFull (st : LAState) (r g b a : ℚ) : LAState :=
  setRGB st (r / 255) (g / 255) (b / 255) a

/-- LAColour._getHSV (b.py lines 126-143).  The final branch of the Python
elif chain tests Cmax == b; since Cmax is the maximum of r, g and b, that
test always succeeds when the earlier two fail, so it is embedded as the
else branch.  The divisions here are exact over the rationals while the
program rounds each float operation; because the three results then pass
through int truncation, a rounding error of one ulp below an integer changes
the output by a whole unit (the float program re-reads hue 44 from the
channels stored by hue 45, saturation 30, value 80).  No theorem in this
file asserts agreement of getHSV with its float counterpart beyond inputs
whose intermediate values are exactly representable. -/
def getHSV (st : LAState) : PyVal :=
  let r := st.c0
  let g := st.c1
  let b := st.c2
  let Cmax := max r (max g b)
  let Cmin := min r (min g b)
  let delta := Cmax - Cmin
  let hue : ℚ :=
    if Cmax = Cmin then 0
    else if Cmax = r then 60 * pyMod ((g - b) / delta) 6
    else if Cmax = g then 60 * ((b - r) / delta + 2)
    else 60 * ((r - g) / delta + 4)
  let sat : ℚ := if Cmax = 0 then 0 else delta / Cmax
  .list [(pyInt hue : ℚ), (pyInt (sat * 100) : ℚ), (pyInt (Cmax * 100) : ℚ), st.c3]

/-- The sector selection of LAColour._setHSV (b.py lines 151-162), with the
overlapping conditions exactly as written in the source; none corresponds to
no branch assigning r, g, b. -/
inductive Sector where
  | s0 | s1 | s2 | s3 | s4 | s5
deriving DecidableEq, Repr

def hsvSector (h : ℚ) : Option Sector :=
  if h ≤ 0 ∨ h < 60 then some .s0
  else if h ≤ 60 ∨ h < 120 then some .s1
  else if h ≤ 120 ∨ h < 180 then some .s2
  else if h ≤ 180 ∨ h < 240 then some .s3
  else if h ≤ 240 ∨ h < 300 then some .s4
  else if h ≤ 300 ∨ h < 360 then some .s5
  else none

/-- LAColour._setHSV (b.py lines 145-164).  When no sector condition holds
(h at least 360) the local variables r, g, b are never assigned and the
final statement raises UnboundLocalError, modelled by none.  No clamping is
applied on this path.  The stored channel values are exact here whereas the
float program stores values off by rounding; the sector selection and the
raise-on-fallthrough control flow are unaffected by that rounding, but the
stored values feed the getHSV divergence documented there. -/
def setHSV (st : LAState) (h s v a : ℚ) : Option LAState :=
  let s' := s * 0.01
  let v' := v * 0.01
  let c := v' * s'
  let x := c * (1 - |pyMod (h / 60) 2 - 1|)
  let m := v' - c
  match hsvSector h with
  | some sec =>
    let rgb : ℚ × ℚ × ℚ :=
      match sec with
      | .s0 => (c, x, 0)
      | .s1 => (x, c, 0)
      | .s2 => (0, c, x)
      | .s3 => (0, x, c)
      | .s4 => (x, 0, c)
      | .s5 => (c, 0, x)
    some { st with c0 := rgb.1 + m, c1 := rgb.2.1 + m, c2 := rgb.2.2 + m, c3 := a }
  | none => none

/-- LAColour._getCMYK (b.py lines 166-170): K is recomputed from the stored
channels, and the returned list holds C, M, Y (integer percentages) and the
raw alpha; K itself is not returned.  When 1 - K is zero (pure black) the
division raises ZeroDivisionError, modelled by none.  Over the rationals
that guard fires exactly when the maximum channel is 0; in the float program
K = 1 - max rounds to exactly 1.0 already for any positive max below about
5.6e-17, so the real error path is wider than this one.  The fault at exact
black is shared by both arithmetics, and no theorem in this file asserts
that getCMYK succeeds away from the guard. -/
def getCMYK (st : LAState) : Option PyVal :=
  let K := 1 - max st.c0 (max st.c1 st.c2)
  if (1 : ℚ) - K = 0 then none
  else
    some (.list [(pyInt ((1 - st.c0 - K) / (1 - K) * 100) : ℚ),
                 (pyInt ((1 - st.c1 - K) / (1 - K) * 100) : ℚ),
                 (pyInt ((1 - st.c2 - K) / (1 - K) * 100) : ℚ), st.c3])

/-- LAColour._setCMYK (b.py lines 172-174).  No clamping is applied. -/
def setCMYK (st : LAState) (c m y k a : ℚ) : LAState :=
  let k' := 1 - k * 0.01
  { st with c0 := (1 - c * 0.01) * k', c1 := (1 - m * 0.01) * k',
            c2 := (1 - y * 0.01) * k', c3 := a }

/-- LAColour._getHEX (b.py lines 176-179): two lowercase hex digits per
0-255-scaled channel; the HEX space prints three channels, any other caller
(HEXLONG) prints all four. -/
def getHEX (st : LAState) (cs : Colour) : String :=
  if cs = Colour.HEX then
    String.mk (fmt02x (pyInt (st.c0 * 255)) ++ fmt02x (pyInt (st.c1 * 255)) ++
               fmt02x (pyInt (st.c2 * 255)))
  else
    String.mk (fmt02x (pyInt (st.c0 * 255)) ++ fmt02x (pyInt (st.c1 * 255)) ++
               fmt02x (pyInt (st.c2 * 255)) ++ fmt02x (pyInt (st.c3 * 255)))

/-- The normalisation line of _setHEX (b.py line 183): every hash character
removed, then the remainder lowercased. -/
def normHex (s : String) : List Char :=
  (s.data.filter (fun ch => ch ≠ '#')).map Char.toLower

/-- LAColour._setHEX (b.py lines 181-190): every hash character is removed
and the string lowercased; a six character remainder stores three channels
and resets alpha to 1, an eight character remainder stores four channels,
any other length falls through leaving the state unchanged.  A slice that is
not two hex digits makes int(slice, 16) raise ValueError before any
assignment happens, modelled by none.  (Python int also tolerates exotic
slices such as a leading space or sign inside a pair; those corner inputs
are not modelled and no claim depends on them.) -/
def setHEX (st : LAState) (s : String) : Option LAState :=
  let cs := normHex s
  if cs.length = 6 then
    match hexPairVal (cs.getD 0 ' ') (cs.getD 1 ' '),
          hexPairVal (cs.getD 2 ' ') (cs.getD 3 ' '),
          hexPairVal (cs.getD 4 ' ') (cs.getD 5 ' ') with
    | some p1, some p2, some p3 =>
      some { st with c0 := (p1 : ℚ) / 255, c1 := (p2 : ℚ) / 255,
                     c2 := (p3 : ℚ) / 255, c3 := 1 }
    | _, _, _ => none
  else if cs.length = 8 then
    match hexPairVal (cs.getD 0 ' ') (cs.getD 1 ' '),
          hexPairVal (cs.getD 2 ' ') (cs.getD 3 ' '),
          hexPairVal (cs.getD 4 ' ') (cs.getD 5 ' '),
          hexPairVal (cs.getD 6 ' ') (cs.getD 7 ' ') with
    | some p1, some p2, some p3, some p4 =>
      some { st with c0 := (p1 : ℚ) / 255, c1 := (p2 : ℚ) / 255,
                     c2 := (p3 : ℚ) / 255, c3 := (p4 : ℚ) / 255 }
    | _, _, _, _ => none
  else some st

/-- LAColour.get (b.py lines 62-82), with an explicit colour space argument.
The if chain handles RGB, RGBFull, HSV, CMYK and the two hex spaces; a CMY
argument matches no branch and the method returns the Python value None.
The outer Option models an exception escaping (only possible for CMYK). -/
def get (st : LAState) (cs : Colour) : Option PyVal :=
  match cs with
  | .RGB => some (getRGB st)
  | .RGBFull => some (getRGBFull st)
  | .HSV => some (getHSV st)
  | .CMYK => getCMYK st
  | .HEX | .HEXLONG => some (.str (getHEX st cs))
  | .CMY => some .pyNone

/-- The dispatch part of LAColour.set (b.py lines 95-105): the chosen setter
is called with the elements of the input sequence spread over its defaulted
parameters (missing trailing arguments take the defaults, more arguments
than parameters raise TypeError), a CMY space matches no branch and mutates
nothing, and calling a numeric setter with a string (or a hex setter with a
sequence) raises, modelled by none.  (The vacuous corner of spreading an
empty string over a numeric setter, which Python would accept via the
defaults, is not modelled; no claim depends on it.) -/
def applySet (st : LAState) (colour : PyIn) (cs : Colour) : Option LAState :=
  match cs, colour with
  | .RGB, .nums xs =>
    if xs.length ≤ 4 then
      some (setRGB st (xs.getD 0 0) (xs.getD 1 0) (xs.getD 2 0) (xs.getD 3 1))
    else none
  | .RGBFull, .nums xs =>
    if xs.length ≤ 4 then
      some (setRGBFull st (xs.getD 0 0) (xs.getD 1 0) (xs.getD 2 0) (xs.getD 3 1))
    else none
  | .HSV, .nums xs =>
    if xs.length ≤ 4 then
      setHSV st (xs.getD 0 0) (xs.getD 1 0) (xs.getD 2 0) (xs.getD 3 1)
    else none
  | .CMYK, .nums xs =>
    if xs.length ≤ 5 then
      some (setCMYK st (xs.getD 0 0) (xs.getD 1 0) (xs.getD 2 0) (xs.getD 3 0)
              (xs.getD 4 1))
    else none
  | .HEX, .str s => setHEX st s
  | .HEXLONG, .str s => setHEX st s
  | .CMY, _ => some st
  | _, _ => none

/-- LAColour.set (b.py lines 84-107) with an explicit colour and colour
space: dispatches to the setter for the space and then returns
self.get(colour_space), so the caller receives the re-read colour together
with the new state. -/
def set (st : LAState) (colour : PyIn) (cs : Colour) : Option (LAState × PyVal) :=
  match applySet st colour cs with
  | some st' =>
    match get st' cs with
    | some v => some (st', v)
    | none => none
  | none => none

/-- LAColour.__init__ (b.py lines 55-59): stores the colour space and the
clamping flag, initialises the list to opaque black and delegates to set
(whose returned value is discarded). -/
def init (colour : PyIn) (cs : Colour) (clamped : Bool) : Option (LAState × PyVal) :=
  set ⟨0, 0, 0, 1, cs, clamped⟩ colour cs

end LAColour

/-- The convenient base state: opaque black, RGB creation space, clamping
enabled (the constructor defaults of b.py line 55). -/
def st0 : LAState := ⟨0, 0, 0, 1, Colour.RGB, true⟩

/-- Modelled from the spec (section 6): the host-native colour object
(om2.MColor) consumed by the host-backed variant stores four channels and
getColor returns them as a sequence.  The native object itself lives outside
this repository. -/
structure MColor where
  r : ℚ
  g : ℚ
  b : ℚ
  a : ℚ
deriving DecidableEq, Repr

namespace LAMColour

/-- LAMColour._getRGB (b.py lines 202-203): returns the channel sequence of
the native colour object. -/
def getRGB (mc : MColor) : PyVal := .list [mc.r, mc.g, mc.b, mc.a]

/-- LAMColour.set (b.py lines 197-199): assigns a fresh native colour object,
delegates to the base class set (discarding what that call returns) and ends
without a return statement, so its Python return value is None for every
input, whatever the delegated call stored in the native object. -/
def setReturn (_colour : PyIn) (_cs : Colour) : PyVal := PyVal.pyNone

end LAMColour

/-- The simple ascending less-than ladder that the spec (section 4.1) states
to be equivalent to the overlapping sector conditions of _setHSV; written
from the words of the spec. -/
def hsvSectorSpecLadder (h : ℚ) : Option LAColour.Sector :=
  if h < 60 then some .s0
  else if h < 120 then some .s1
  else if h < 180 then some .s2
  else if h < 240 then some .s3
  else if h < 300 then some .s4
  else if h < 360 then some .s5
  else none

/-! ### Helper lemmas -/

lemma pyInt_natCast (n : ℕ) : pyInt (n : ℚ) = n := by
  unfold pyInt
  rw [if_neg (by push_neg; positivity)]
  exact Int.floor_natCast n

lemma pyInt_zero : pyInt 0 = 0 := by
  simpa using pyInt_natCast 0

namespace LAColour

lemma set_nums_RGB (st : LAState) (r g b a : ℚ) :
    set st (.nums [r, g, b, a]) .RGB =
      some (setRGB st r g b a, getRGB (setRGB st r g b a)) := by
  simp [set, applySet, get, List.getD]

lemma set_nums_RGBFull (st : LAState) (r g b a : ℚ) :
    set st (.nums [r, g, b, a]) .RGBFull =
      some (setRGBFull st r g b a, getRGBFull (setRGBFull st r g b a)) := by
  simp [set, applySet, get, List.getD]

lemma set_nums_CMYK (st : LAState) (c m y k a : ℚ) :
    set st (.nums [c, m, y, k, a]) .CMYK =
      match getCMYK (setCMYK st c m y k a) with
      | some v => some (setCMYK st c m y k a, v)
      | none => none := by
  simp [set, applySet, get, List.getD]

lemma set_nums_HSV (st : LAState) (h s v a : ℚ) :
    set st (.nums [h, s, v, a]) .HSV =
      match setHSV st h s v a with
      | some st' => some (st', getHSV st')
      | none => none := by
  cases hset : setHSV st h s v a <;>
    simp [set, applySet, get, List.getD, hset]

lemma set_str_HEX (st : LAState) (s : String) :
    set st (.str s) .HEX =
      match setHEX st s with
      | some st' => some (st', .str (getHEX st' .HEX))
      | none => none := by
  cases hset : setHEX st s <;> simp [set, applySet, get, hset]

lemma set_str_HEXLONG (st : LAState) (s : String) :
    set st (.str s) .HEXLONG =
      match setHEX st s with
      | some st' => some (st', .str (getHEX st' .HEXLONG))
      | none => none := by
  cases hset : setHEX st s <;> simp [set, applySet, get, hset]

lemma clamp01_bounds (st : LAState) (hcl : st.clampValues = true) (x : ℚ) :
    0 ≤ clamp st x 0 1 ∧ clamp st x 0 1 ≤ 1 := by
  unfold clamp
  rw [if_pos hcl]
  exact ⟨le_max_right _ _, max_le (min_le_right _ _) (by norm_num)⟩

end LAColour

/-! ### Claim theorems -/

/-- Claim C3: the spec requires that on pure black, get(CMYK) returns
C = M = Y = 0 with K = 100 and does not raise a division fault; the code
(b.py lines 166-170) divides by 1 - K with no guard, so at the stored colour
0, 0, 0 (reached by set([0,0,0,1.0], RGB), which stores black and returns it)
the conversion raises ZeroDivisionError, modelled by none.  The getter also
never returns K at all: its result list is C, M, Y, alpha. -/
theorem C3_cmyk_black_division_fault :
    LAColour.set st0 (.nums [0, 0, 0, 1]) .RGB = some (st0, .list [0, 0, 0, 1]) ∧
    LAColour.get st0 .CMYK = none := by
  constructor
  · rw [LAColour.set_nums_RGB]
    norm_num [LAColour.setRGB, LAColour.getRGB, LAColour.clamp, st0]
  · norm_num [LAColour.get, LAColour.getCMYK, st0]

/-- Claim C9: the overlapping sector conditions of _setHSV (b.py lines
151-162), first true branch winning, select the same sector for every hue as
the simple ascending less-than ladder written in the spec. -/
theorem C9_sector_ladder_equiv : ∀ h : ℚ, LAColour.hsvSector h = hsvSectorSpecLadder h := by
  intro h
  have e1 : (h ≤ 0 ∨ h < 60) ↔ h < 60 := or_iff_right_of_imp (fun hh => by linarith)
  have e2 : (h ≤ 60 ∨ h < 120) ↔ h < 120 := or_iff_right_of_imp (fun hh => by linarith)
  have e3 : (h ≤ 120 ∨ h < 180) ↔ h < 180 := or_iff_right_of_imp (fun hh => by linarith)
  have e4 : (h ≤ 180 ∨ h < 240) ↔ h < 240 := or_iff_right_of_imp (fun hh => by linarith)
  have e5 : (h ≤ 240 ∨ h < 300) ↔ h < 300 := or_iff_right_of_imp (fun hh => by linarith)
  have e6 : (h ≤ 300 ∨ h < 360) ↔ h < 360 := or_iff_right_of_imp (fun hh => by linarith)
  simp only [LAColour.hsvSector, hsvSectorSpecLadder, e1, e2, e3, e4, e5, e6]

/-- Claim C10: CMY is a member of the Colour enumeration but no branch of
get or set handles it: get(CMY) returns the Python value None, and
set(colour, CMY) leaves the stored state unchanged (returning the None that
get(CMY) produces), for every state and every input. -/
theorem C10_cmy_unhandled :
    ∀ (st : LAState) (colour : PyIn),
      LAColour.set st colour .CMY = some (st, .pyNone) ∧
      LAColour.get st .CMY = some .pyNone := by
  intro st colour
  refine ⟨?_, rfl⟩
  cases colour <;> simp [LAColour.set, LAColour.applySet, LAColour.get]

namespace LAColour

lemma setHEX_wrong_length (st : LAState) (s : String)
    (h6 : (normHex s).length ≠ 6) (h8 : (normHex s).length ≠ 8) :
    setHEX st s = some st := by
  simp only [setHEX]
  rw [if_neg h6, if_neg h8]

lemma setHEX_norm6 (st : LAState) (s : String) (a b c d e f : Char)
    (p1 p2 p3 : ℕ) (hn : normHex s = [a, b, c, d, e, f])
    (h1 : hexPairVal a b = some p1) (h2 : hexPairVal c d = some p2)
    (h3 : hexPairVal e f = some p3) :
    setHEX st s = some { st with c0 := (p1 : ℚ) / 255, c1 := (p2 : ℚ) / 255,
                                 c2 := (p3 : ℚ) / 255, c3 := 1 } := by
  simp [setHEX, hn, h1, h2, h3, List.getD]

lemma setHEX_norm8 (st : LAState) (s : String) (a b c d e f g h : Char)
    (p1 p2 p3 p4 : ℕ) (hn : normHex s = [a, b, c, d, e, f, g, h])
    (h1 : hexPairVal a b = some p1) (h2 : hexPairVal c d = some p2)
    (h3 : hexPairVal e f = some p3) (h4 : hexPairVal g h = some p4) :
    setHEX st s = some { st with c0 := (p1 : ℚ) / 255, c1 := (p2 : ℚ) / 255,
                                 c2 := (p3 : ℚ) / 255, c3 := (p4 : ℚ) / 255 } := by
  simp [setHEX, hn, h1, h2, h3, h4, List.getD]

end LAColour

/-- Claim C5 (amended): in the default variant, a hex string whose
hash-stripped form has length other than 6 or 8 is silently ignored: the
state is unchanged and set returns the re-read prior colour, so a subsequent
get returns the pre-call value.  (A 6- or 8-length string containing a
non-hex character is NOT silently ignored: it raises ValueError, see the
counterexample.) -/
theorem C5_wrong_length_hex_noop :
    ∀ (st : LAState) (s : String),
      (LAColour.normHex s).length ≠ 6 → (LAColour.normHex s).length ≠ 8 →
      LAColour.set st (.str s) .HEX = some (st, .str (LAColour.getHEX st .HEX)) := by
  intro st s h6 h8
  rw [LAColour.set_str_HEX, LAColour.setHEX_wrong_length st s h6 h8]

/-- Claim C5, counterexample: a six character string of non-hex characters
is not silently ignored; int(slice, 16) raises ValueError (modelled none),
so set propagates an exception instead of no-opping. -/
theorem C5_nonhex_chars_raise :
    LAColour.set ⟨1, 8/15, 0, 1, Colour.RGB, true⟩ (.str "zzzzzz") .HEX = none := by
  rw [LAColour.set_str_HEX]
  have hn : LAColour.normHex "zzzzzz" = ['z', 'z', 'z', 'z', 'z', 'z'] := by decide
  have hz : hexPairVal 'z' 'z' = none := by decide
  have hset : LAColour.setHEX ⟨1, 8/15, 0, 1, Colour.RGB, true⟩ "zzzzzz" = none := by
    simp [LAColour.setHEX, hn, hz, List.getD]
  rw [hset]

/-- Claim C5, witness: the wrong-length no-op applied to the spec example
set of the string zz. -/
theorem C5_wrong_length_hex_noop_witness :
    LAColour.set ⟨1, 8/15, 0, 1, Colour.RGB, true⟩ (.str "zz") .HEX =
      some (⟨1, 8/15, 0, 1, Colour.RGB, true⟩,
        .str (LAColour.getHEX ⟨1, 8/15, 0, 1, Colour.RGB, true⟩ .HEX)) :=
  C5_wrong_length_hex_noop _ "zz" (by decide) (by decide)

/-- Claim C6 (amended): in the default variant, set(colour, colour_space)
returns the colour re-read via get(colour_space) on the state it just
stored; the host-backed variant override ends without a return statement and
returns None instead (see the counterexample). -/
theorem C6_default_set_returns_get :
    ∀ (st : LAState) (colour : PyIn) (cs : Colour) (st' : LAState) (v : PyVal),
      LAColour.set st colour cs = some (st', v) → LAColour.get st' cs = some v := by
  intro st colour cs st' v hset
  unfold LAColour.set at hset
  cases happ : LAColour.applySet st colour cs with
  | none => rw [happ] at hset; exact absurd hset (by simp)
  | some st1 =>
    rw [happ] at hset
    dsimp only at hset
    cases hget : LAColour.get st1 cs with
    | none => rw [hget] at hset; exact absurd hset (by simp)
    | some v1 =>
      rw [hget] at hset
      simp only [Option.some.injEq, Prod.mk.injEq] at hset
      obtain ⟨h1, h2⟩ := hset
      rw [← h1, ← h2]
      exact hget

/-- Claim C6, counterexample: the host-backed variant violates the claim:
its set override (b.py lines 197-199) has no return statement, so it returns
the Python value None, which is never the re-read colour that its own getRGB
produces. -/
theorem C6_host_set_returns_none :
    LAMColour.setReturn (.nums [1, 0, 0, 1]) .RGB = PyVal.pyNone ∧
    LAMColour.getRGB ⟨1, 0, 0, 1⟩ = .list [1, 0, 0, 1] ∧
    PyVal.pyNone ≠ PyVal.list [1, 0, 0, 1] :=
  ⟨rfl, rfl, fun h => PyVal.noConfusion h⟩

/-- Claim C6, witness: a concrete set in RGB space whose returned value is
exactly what get re-reads on the new state. -/
theorem C6_default_set_returns_get_witness :
    LAColour.set st0 (.nums [1, 0, 0, 1]) .RGB =
      some (⟨1, 0, 0, 1, Colour.RGB, true⟩, .list [1, 0, 0, 1]) ∧
    LAColour.get ⟨1, 0, 0, 1, Colour.RGB, true⟩ .RGB = some (.list [1, 0, 0, 1]) := by
  have hset : LAColour.set st0 (.nums [1, 0, 0, 1]) .RGB =
      some (⟨1, 0, 0, 1, Colour.RGB, true⟩, .list [1, 0, 0, 1]) := by
    rw [LAColour.set_nums_RGB]
    norm_num [LAColour.setRGB, LAColour.getRGB, LAColour.clamp, st0]
  exact ⟨hset, C6_default_set_returns_get _ _ _ _ _ hset⟩

namespace LAColour

lemma setRGB_bounds (st : LAState) (hcl : st.clampValues = true) (r g b a : ℚ) :
    (0 ≤ (setRGB st r g b a).c0 ∧ (setRGB st r g b a).c0 ≤ 1) ∧
    (0 ≤ (setRGB st r g b a).c1 ∧ (setRGB st r g b a).c1 ≤ 1) ∧
    (0 ≤ (setRGB st r g b a).c2 ∧ (setRGB st r g b a).c2 ≤ 1) ∧
    (0 ≤ (setRGB st r g b a).c3 ∧ (setRGB st r g b a).c3 ≤ 1) := by
  simp only [setRGB]
  exact ⟨clamp01_bounds st hcl r, clamp01_bounds st hcl g,
         clamp01_bounds st hcl b, clamp01_bounds st hcl a⟩

end LAColour

/-- Claim C2 (amended): when clamping is enabled, a set in RGB or RGBFull
space stores all four channels inside the unit interval whatever the input
(in particular set([2.0, -1.0, 0.5, 1.0], RGB) stores [1.0, 0.0, 0.5, 1.0]);
the HSV and CMYK setters bypass _clamp, so out-of-range inputs in those
spaces can store components outside the unit interval (see the
counterexample). -/
theorem C2_clamp_invariant_rgb_paths :
    (∀ (st : LAState) (xs : List ℚ) (st' : LAState) (v : PyVal),
        st.clampValues = true →
        LAColour.set st (.nums xs) .RGB = some (st', v) →
        (0 ≤ st'.c0 ∧ st'.c0 ≤ 1) ∧ (0 ≤ st'.c1 ∧ st'.c1 ≤ 1) ∧
        (0 ≤ st'.c2 ∧ st'.c2 ≤ 1) ∧ (0 ≤ st'.c3 ∧ st'.c3 ≤ 1)) ∧
    (∀ (st : LAState) (xs : List ℚ) (st' : LAState) (v : PyVal),
        st.clampValues = true →
        LAColour.set st (.nums xs) .RGBFull = some (st', v) →
        (0 ≤ st'.c0 ∧ st'.c0 ≤ 1) ∧ (0 ≤ st'.c1 ∧ st'.c1 ≤ 1) ∧
        (0 ≤ st'.c2 ∧ st'.c2 ≤ 1) ∧ (0 ≤ st'.c3 ∧ st'.c3 ≤ 1)) ∧
    LAColour.set st0 (.nums [2, -1, 1/2, 1]) .RGB =
      some (⟨1, 0, 1/2, 1, Colour.RGB, true⟩, .list [1, 0, 1/2, 1]) := by
  refine ⟨?_, ?_, ?_⟩
  · intro st xs st' v hcl hset
    by_cases hlen : xs.length ≤ 4
    · simp only [LAColour.set, LAColour.applySet, LAColour.get, if_pos hlen] at hset
      simp only [Option.some.injEq, Prod.mk.injEq] at hset
      rw [← hset.1]
      exact LAColour.setRGB_bounds st hcl _ _ _ _
    · simp [LAColour.set, LAColour.applySet, if_neg hlen] at hset
  · intro st xs st' v hcl hset
    by_cases hlen : xs.length ≤ 4
    · simp only [LAColour.set, LAColour.applySet, LAColour.get, if_pos hlen] at hset
      simp only [Option.some.injEq, Prod.mk.injEq] at hset
      rw [← hset.1]
      exact LAColour.setRGB_bounds st hcl _ _ _ _
    · simp [LAColour.set, LAColour.applySet, if_neg hlen] at hset
  · rw [LAColour.set_nums_RGB]
    norm_num [LAColour.setRGB, LAColour.getRGB, LAColour.clamp, st0]

/-- Claim C2, counterexample: with clamping enabled, a set in HSV space with
an out-of-range saturation stores components outside the unit interval
(saturation 200 percent at value 100 stores -1 in two channels), because
_setHSV assigns self._colour without calling _clamp. -/
theorem C2_clamp_fails_for_hsv :
    LAColour.set st0 (.nums [0, 200, 100, 1]) .HSV =
      some (⟨1, -1, -1, 1, Colour.RGB, true⟩, .list [0, 200, 100, 1]) ∧
    st0.clampValues = true ∧ ¬ (0 ≤ (-1 : ℚ)) := by
  refine ⟨?_, rfl, by norm_num⟩
  rw [LAColour.set_nums_HSV]
  have hsec : LAColour.hsvSector 0 = some .s0 := by
    unfold LAColour.hsvSector
    norm_num
  have hset : LAColour.setHSV st0 0 200 100 1 = some ⟨1, -1, -1, 1, Colour.RGB, true⟩ := by
    simp only [LAColour.setHSV, hsec]
    norm_num [pyMod, st0]
  rw [hset]
  have hget : LAColour.getHSV ⟨1, -1, -1, 1, Colour.RGB, true⟩ = .list [0, 200, 100, 1] := by
    have hmax : max (1 : ℚ) (max (-1) (-1)) = 1 := by norm_num
    have hmin : min (1 : ℚ) (min (-1) (-1)) = -1 := by norm_num
    simp only [LAColour.getHSV, hmax, hmin]
    norm_num [pyMod, pyInt]
  dsimp only
  rw [hget]

/-- Claim C2, witness: the clamp invariant for the RGB path applied to the
out-of-range input of the spec example. -/
theorem C2_clamp_invariant_rgb_paths_witness :
    (0 ≤ (1 : ℚ) ∧ (1 : ℚ) ≤ 1) ∧ (0 ≤ (0 : ℚ) ∧ (0 : ℚ) ≤ 1) ∧
    (0 ≤ (1/2 : ℚ) ∧ (1/2 : ℚ) ≤ 1) ∧ (0 ≤ (1 : ℚ) ∧ (1 : ℚ) ≤ 1) := by
  have hset : LAColour.set st0 (.nums [2, -1, 1/2, 1]) .RGB =
      some (⟨1, 0, 1/2, 1, Colour.RGB, true⟩, .list [1, 0, 1/2, 1]) := by
    rw [LAColour.set_nums_RGB]
    norm_num [LAColour.setRGB, LAColour.getRGB, LAColour.clamp, st0]
  simpa using C2_clamp_invariant_rgb_paths.1 st0 [2, -1, 1/2, 1]
    ⟨1, 0, 1/2, 1, Colour.RGB, true⟩ (.list [1, 0, 1/2, 1]) rfl hset

namespace LAColour

lemma hsvSector_isSome_of_lt360 (h : ℚ) (hh : h < 360) : ∃ sec, hsvSector h = some sec := by
  unfold hsvSector
  split_ifs with h1 h2 h3 h4 h5 h6
  · exact ⟨_, rfl⟩
  · exact ⟨_, rfl⟩
  · exact ⟨_, rfl⟩
  · exact ⟨_, rfl⟩
  · exact ⟨_, rfl⟩
  · exact ⟨_, rfl⟩
  · exact absurd (Or.inr hh) h6

lemma setHSV_isSome_of_lt360 (st : LAState) (h s v a : ℚ) (hh : h < 360) :
    ∃ st', setHSV st h s v a = some st' := by
  obtain ⟨sec, hsec⟩ := hsvSector_isSome_of_lt360 h hh
  cases hs : setHSV st h s v a with
  | some st' => exact ⟨st', rfl⟩
  | none =>
    simp only [setHSV, hsec] at hs
    exact absurd hs (by simp)

end LAColour

/-- Claim C4 (amended): no exception escapes set or get on these paths: set
never raises for RGB or RGBFull with a numeric input of length at most 4,
for HSV with hue below 360, or for a hex string whose hash-stripped length
is neither 6 nor 8 (silent no-op); get never raises in any space other than
CMYK.  These paths contain no division whose zero test is
rounding-sensitive, so they are also exception-free in the float arithmetic
of the program.  The claim as stated is false: exceptions do escape the
engine (HSV hue of at least 360 raises UnboundLocalError, see the
counterexample; a 6- or 8-length non-hex string raises ValueError;
get(CMYK) raises ZeroDivisionError at pure black, and in the float program
already whenever the stored maximum channel is small enough that 1 - max
rounds to exactly 1, so a set in CMYK space can propagate that fault through
its re-read even for c, m, y, k below 100 — no safety condition for the
CMYK paths is asserted here). -/
theorem C4_exception_boundary :
    (∀ (st : LAState) (xs : List ℚ), xs.length ≤ 4 →
        (LAColour.set st (.nums xs) .RGB).isSome ∧
        (LAColour.set st (.nums xs) .RGBFull).isSome) ∧
    (∀ (st : LAState) (h s v a : ℚ), h < 360 →
        (LAColour.set st (.nums [h, s, v, a]) .HSV).isSome) ∧
    (∀ (st : LAState) (s : String),
        (LAColour.normHex s).length ≠ 6 → (LAColour.normHex s).length ≠ 8 →
        LAColour.set st (.str s) .HEX = some (st, .str (LAColour.getHEX st .HEX))) ∧
    (∀ (st : LAState) (cs : Colour), cs ≠ .CMYK → (LAColour.get st cs).isSome) := by
  refine ⟨?_, ?_, ?_, ?_⟩
  · intro st xs hlen
    constructor <;> simp [LAColour.set, LAColour.applySet, LAColour.get, if_pos hlen]
  · intro st h s v a hh
    obtain ⟨st', hst'⟩ := LAColour.setHSV_isSome_of_lt360 st h s v a hh
    rw [LAColour.set_nums_HSV, hst']
    rfl
  · intro st s h6 h8
    rw [LAColour.set_str_HEX, LAColour.setHEX_wrong_length st s h6 h8]
  · intro st cs hcs
    cases cs with
    | CMYK => exact absurd rfl hcs
    | _ => simp [LAColour.get]

/-- Claim C4, counterexample: in the default variant a set in HSV space with
hue 360 falls through every sector branch of _setHSV, so the unassigned
local variables raise UnboundLocalError out of set. -/
theorem C4_hsv_hue_360_raises :
    LAColour.set st0 (.nums [360, 50, 50, 1]) .HSV = none := by
  rw [LAColour.set_nums_HSV]
  have hsec : LAColour.hsvSector 360 = none := by
    unfold LAColour.hsvSector
    norm_num
  simp only [LAColour.setHSV, hsec]

/-- Claim C4, witness: the no-exception guarantees applied at concrete
inputs on each guaranteed path. -/
theorem C4_exception_boundary_witness :
    ((LAColour.set st0 (.nums [0, 0, 0, 1]) .RGB).isSome ∧
      (LAColour.set st0 (.nums [0, 0, 0, 1]) .RGBFull).isSome) ∧
    (LAColour.set st0 (.nums [359, 1, 1, 1]) .HSV).isSome ∧
    LAColour.set st0 (.str "q") .HEX = some (st0, .str (LAColour.getHEX st0 .HEX)) ∧
    (LAColour.get st0 .RGB).isSome :=
  ⟨C4_exception_boundary.1 st0 [0, 0, 0, 1] (by norm_num),
   C4_exception_boundary.2.1 st0 359 1 1 1 (by norm_num),
   C4_exception_boundary.2.2.1 st0 "q" (by decide) (by decide),
   C4_exception_boundary.2.2.2 st0 .RGB (by simp)⟩

/-- Claim C8: whenever the maximum and minimum of the stored r, g, b
channels coincide, _getHSV returns hue 0 (and saturation 0, since delta is
0); in particular mid grey returns hue 0, saturation 0, value 50. -/
theorem C8_hsv_achromatic :
    (∀ st : LAState, max st.c0 (max st.c1 st.c2) = min st.c0 (min st.c1 st.c2) →
        LAColour.getHSV st =
          .list [0, 0, (pyInt (max st.c0 (max st.c1 st.c2) * 100) : ℚ), st.c3]) ∧
    LAColour.set st0 (.nums [1/2, 1/2, 1/2, 1]) .RGB =
      some (⟨1/2, 1/2, 1/2, 1, Colour.RGB, true⟩, .list [1/2, 1/2, 1/2, 1]) ∧
    LAColour.get ⟨1/2, 1/2, 1/2, 1, Colour.RGB, true⟩ .HSV = some (.list [0, 0, 50, 1]) := by
  refine ⟨?_, ?_, ?_⟩
  · intro st hmm
    have hd : max st.c0 (max st.c1 st.c2) - min st.c0 (min st.c1 st.c2) = 0 := by
      rw [hmm]; ring
    simp only [LAColour.getHSV, if_pos hmm, hd, zero_div, ite_self]
    norm_num [pyInt_zero]
  · rw [LAColour.set_nums_RGB]
    norm_num [LAColour.setRGB, LAColour.getRGB, LAColour.clamp, st0]
  · simp only [LAColour.get, LAColour.getHSV, max_self, min_self]
    norm_num [pyInt]

/-- Claim C8, witness: the achromatic rule applied to the base state (black,
where max and min are both 0). -/
theorem C8_hsv_achromatic_witness :
    LAColour.getHSV st0 = .list [0, 0, 0, 1] := by
  have h := C8_hsv_achromatic.1 st0 (by norm_num [st0])
  simpa [st0, pyInt] using h

/-- Claim C7: hex parsing is hash-prefix- and case-insensitive (every hash
is stripped and the string lowercased before parsing, so prefixing a hash
never changes the result, stated for all strings) and hex output round-trips
exactly: set of ff8800 re-reads as ff8800, and set of hash-FF8800 produces
the same state and return as set of ff8800. -/
theorem C7_hex_roundtrip_insensitive :
    (∀ (st : LAState) (s : String),
        LAColour.set st (.str ("#" ++ s)) .HEX = LAColour.set st (.str s) .HEX) ∧
    LAColour.set st0 (.str "ff8800") .HEX =
      some (⟨1, 136/255, 0, 1, Colour.RGB, true⟩, .str "ff8800") ∧
    LAColour.set st0 (.str "#FF8800") .HEX =
      some (⟨1, 136/255, 0, 1, Colour.RGB, true⟩, .str "ff8800") := by
  have hgetFF : LAColour.getHEX ⟨(255 : ℕ) / 255, (136 : ℕ) / 255, (0 : ℕ) / 255, 1,
      Colour.RGB, true⟩ .HEX = "ff8800" := by
    simp only [LAColour.getHEX, if_pos rfl]
    norm_num [pyInt]
    decide
  refine ⟨?_, ?_, ?_⟩
  · intro st s
    have h1 : ("#" ++ s).data = '#' :: s.data := by
      rw [String.data_append]
      rfl
    have hnorm : LAColour.normHex ("#" ++ s) = LAColour.normHex s := by
      simp [LAColour.normHex, h1]
    rw [LAColour.set_str_HEX, LAColour.set_str_HEX]
    simp only [LAColour.setHEX, hnorm]
  · have h := LAColour.setHEX_norm6 st0 "ff8800" 'f' 'f' '8' '8' '0' '0' 255 136 0
      (by decide) (by decide) (by decide) (by decide)
    rw [LAColour.set_str_HEX, h]
    simp only [st0]
    rw [hgetFF]
    norm_num
  · have h := LAColour.setHEX_norm6 st0 "#FF8800" 'f' 'f' '8' '8' '0' '0' 255 136 0
      (by decide) (by decide) (by decide) (by decide)
    rw [LAColour.set_str_HEX, h]
    simp only [st0]
    rw [hgetFF]
    norm_num


lemma pyInt_natCast_q (n : ℕ) : ((pyInt (n : ℚ) : ℤ) : ℚ) = (n : ℚ) := by
  rw [pyInt_natCast]
  push_cast
  rfl


set_option maxRecDepth 10000 in
lemma pyHex2_eq : ∀ n < 256, pyHex2 n = [Nat.digitChar (n / 16), Nat.digitChar (n % 16)] := by
  decide

set_option maxRecDepth 10000 in
lemma norm_pyHex2 : ∀ n < 256,
    ((pyHex2 n).filter (fun ch => ch ≠ '#')).map Char.toLower = pyHex2 n := by
  decide

set_option maxRecDepth 10000 in
lemma hexPair_digitChar : ∀ n < 256,
    hexPairVal (Nat.digitChar (n / 16)) (Nat.digitChar (n % 16)) = some n := by
  decide

lemma fmt02x_natCast (n : ℕ) : fmt02x (n : ℤ) = pyHex2 n := by
  unfold fmt02x
  rw [if_neg (by simp), Int.toNat_natCast]

namespace LAColour

lemma normHex_mk3 (n1 n2 n3 : ℕ) (h1 : n1 < 256) (h2 : n2 < 256) (h3 : n3 < 256) :
    normHex (String.mk (pyHex2 n1 ++ pyHex2 n2 ++ pyHex2 n3)) =
      [Nat.digitChar (n1 / 16), Nat.digitChar (n1 % 16), Nat.digitChar (n2 / 16),
       Nat.digitChar (n2 % 16), Nat.digitChar (n3 / 16), Nat.digitChar (n3 % 16)] := by
  show (((pyHex2 n1 ++ pyHex2 n2 ++ pyHex2 n3).filter (fun ch => ch ≠ '#')).map Char.toLower) = _
  rw [List.filter_append, List.filter_append, List.map_append, List.map_append,
      norm_pyHex2 n1 h1, norm_pyHex2 n2 h2, norm_pyHex2 n3 h3,
      pyHex2_eq n1 h1, pyHex2_eq n2 h2, pyHex2_eq n3 h3]
  rfl

lemma normHex_mk4 (n1 n2 n3 n4 : ℕ) (h1 : n1 < 256) (h2 : n2 < 256) (h3 : n3 < 256)
    (h4 : n4 < 256) :
    normHex (String.mk (pyHex2 n1 ++ pyHex2 n2 ++ pyHex2 n3 ++ pyHex2 n4)) =
      [Nat.digitChar (n1 / 16), Nat.digitChar (n1 % 16), Nat.digitChar (n2 / 16),
       Nat.digitChar (n2 % 16), Nat.digitChar (n3 / 16), Nat.digitChar (n3 % 16),
       Nat.digitChar (n4 / 16), Nat.digitChar (n4 % 16)] := by
  show (((pyHex2 n1 ++ pyHex2 n2 ++ pyHex2 n3 ++ pyHex2 n4).filter
      (fun ch => ch ≠ '#')).map Char.toLower) = _
  rw [List.filter_append, List.filter_append, List.filter_append, List.map_append,
      List.map_append, List.map_append, norm_pyHex2 n1 h1, norm_pyHex2 n2 h2,
      norm_pyHex2 n3 h3, norm_pyHex2 n4 h4,
      pyHex2_eq n1 h1, pyHex2_eq n2 h2, pyHex2_eq n3 h3, pyHex2_eq n4 h4]
  rfl

lemma getHEX_bytes3 (st : LAState) (n1 n2 n3 : ℕ)
    (e0 : st.c0 = (n1 : ℚ) / 255) (e1 : st.c1 = (n2 : ℚ) / 255) (e2 : st.c2 = (n3 : ℚ) / 255) :
    getHEX st .HEX = String.mk (pyHex2 n1 ++ pyHex2 n2 ++ pyHex2 n3) := by
  unfold getHEX
  rw [if_pos rfl, e0, e1, e2,
      div_mul_cancel₀ _ (by norm_num : (255 : ℚ) ≠ 0),
      div_mul_cancel₀ _ (by norm_num : (255 : ℚ) ≠ 0),
      div_mul_cancel₀ _ (by norm_num : (255 : ℚ) ≠ 0),
      pyInt_natCast, pyInt_natCast, pyInt_natCast,
      fmt02x_natCast, fmt02x_natCast, fmt02x_natCast]

lemma getHEX_bytes4 (st : LAState) (n1 n2 n3 n4 : ℕ)
    (e0 : st.c0 = (n1 : ℚ) / 255) (e1 : st.c1 = (n2 : ℚ) / 255) (e2 : st.c2 = (n3 : ℚ) / 255)
    (e3 : st.c3 = (n4 : ℚ) / 255) :
    getHEX st .HEXLONG = String.mk (pyHex2 n1 ++ pyHex2 n2 ++ pyHex2 n3 ++ pyHex2 n4) := by
  unfold getHEX
  rw [if_neg (by simp), e0, e1, e2, e3,
      div_mul_cancel₀ _ (by norm_num : (255 : ℚ) ≠ 0),
      div_mul_cancel₀ _ (by norm_num : (255 : ℚ) ≠ 0),
      div_mul_cancel₀ _ (by norm_num : (255 : ℚ) ≠ 0),
      div_mul_cancel₀ _ (by norm_num : (255 : ℚ) ≠ 0),
      pyInt_natCast, pyInt_natCast, pyInt_natCast, pyInt_natCast,
      fmt02x_natCast, fmt02x_natCast, fmt02x_natCast, fmt02x_natCast]

end LAColour

namespace LAColour

lemma clamp01_id (st : LAState) (x : ℚ) (h0 : 0 ≤ x) (h1 : x ≤ 1) : clamp st x 0 1 = x := by
  unfold clamp
  split_ifs
  · rw [min_eq_left h1, max_eq_left h0]
  · rfl

end LAColour

/-- Claim C1 (amended): the same-space round trip get(set(x, S), S) = x holds
exactly for RGB with channels in the unit interval, for RGBFull with integer
channels 0-255 and alpha in the unit interval, and for HEX and HEXLONG on
lowercase unprefixed hex strings (ranged over as the two-digit encodings of
their byte values); on these paths the stored values and re-read integers
are reproduced without rounding even in the float arithmetic of the
program.  The claim as stated is false for CMYK (whose getter recomputes K
from the stored channels and omits K from its result) and for HSV: a
zero-saturation input collapses the hue to 0 even in exact arithmetic (see
the counterexample), and on nondegenerate inputs the float program's
rounding combined with the int truncations of _getHSV perturbs the re-read
hue, saturation or value by a whole unit on many ordinary integer inputs
(for example hue 45 at saturation 30, value 80 re-reads as 44), far beyond
the claimed 1e-6 — only this exact-rational embedding, not the program,
round-trips HSV, so no HSV conjunct is asserted. -/
theorem C1_same_space_roundtrip :
    (∀ (st : LAState) (r g b a : ℚ), 0 ≤ r → r ≤ 1 → 0 ≤ g → g ≤ 1 → 0 ≤ b → b ≤ 1 →
        0 ≤ a → a ≤ 1 →
        ∃ st', LAColour.set st (.nums [r, g, b, a]) .RGB = some (st', .list [r, g, b, a])) ∧
    (∀ (st : LAState) (ri gi bi : ℕ) (a : ℚ), ri ≤ 255 → gi ≤ 255 → bi ≤ 255 →
        0 ≤ a → a ≤ 1 →
        ∃ st', LAColour.set st (.nums [(ri : ℚ), (gi : ℚ), (bi : ℚ), a]) .RGBFull =
          some (st', .list [(ri : ℚ), (gi : ℚ), (bi : ℚ), a])) ∧
    (∀ (st : LAState) (n1 n2 n3 : ℕ), n1 < 256 → n2 < 256 → n3 < 256 →
        ∃ st', LAColour.set st (.str (String.mk (pyHex2 n1 ++ pyHex2 n2 ++ pyHex2 n3))) .HEX =
          some (st', .str (String.mk (pyHex2 n1 ++ pyHex2 n2 ++ pyHex2 n3)))) ∧
    (∀ (st : LAState) (n1 n2 n3 n4 : ℕ), n1 < 256 → n2 < 256 → n3 < 256 → n4 < 256 →
        ∃ st', LAColour.set st
            (.str (String.mk (pyHex2 n1 ++ pyHex2 n2 ++ pyHex2 n3 ++ pyHex2 n4))) .HEXLONG =
          some (st', .str (String.mk (pyHex2 n1 ++ pyHex2 n2 ++ pyHex2 n3 ++ pyHex2 n4)))) := by
  refine ⟨?_, ?_, ?_, ?_⟩
  · intro st r g b a hr0 hr1 hg0 hg1 hb0 hb1 ha0 ha1
    refine ⟨LAColour.setRGB st r g b a, ?_⟩
    rw [LAColour.set_nums_RGB]
    have hv : LAColour.getRGB (LAColour.setRGB st r g b a) = .list [r, g, b, a] := by
      simp only [LAColour.setRGB, LAColour.getRGB]
      rw [LAColour.clamp01_id st r hr0 hr1, LAColour.clamp01_id st g hg0 hg1,
          LAColour.clamp01_id st b hb0 hb1, LAColour.clamp01_id st a ha0 ha1]
    rw [hv]
  · intro st ri gi bi a hr hg hb ha0 ha1
    refine ⟨LAColour.setRGBFull st ri gi bi a, ?_⟩
    rw [LAColour.set_nums_RGBFull]
    have hb255 : ∀ n : ℕ, n ≤ 255 → (0 : ℚ) ≤ (n : ℚ) / 255 ∧ (n : ℚ) / 255 ≤ 1 := by
      intro n hn
      constructor
      · positivity
      · rw [div_le_one (by norm_num : (0:ℚ) < 255)]
        exact_mod_cast hn
    have hv : LAColour.getRGBFull (LAColour.setRGBFull st ri gi bi a) =
        .list [(ri : ℚ), (gi : ℚ), (bi : ℚ), a] := by
      simp only [LAColour.setRGBFull, LAColour.setRGB, LAColour.getRGBFull]
      rw [LAColour.clamp01_id st _ (hb255 ri hr).1 (hb255 ri hr).2,
          LAColour.clamp01_id st _ (hb255 gi hg).1 (hb255 gi hg).2,
          LAColour.clamp01_id st _ (hb255 bi hb).1 (hb255 bi hb).2,
          LAColour.clamp01_id st a ha0 ha1]
      rw [div_mul_cancel₀ _ (by norm_num : (255 : ℚ) ≠ 0),
          div_mul_cancel₀ _ (by norm_num : (255 : ℚ) ≠ 0),
          div_mul_cancel₀ _ (by norm_num : (255 : ℚ) ≠ 0),
          pyInt_natCast_q, pyInt_natCast_q, pyInt_natCast_q]
    rw [hv]
  · intro st n1 n2 n3 h1 h2 h3
    rw [LAColour.set_str_HEX,
        LAColour.setHEX_norm6 st _ _ _ _ _ _ _ n1 n2 n3 (LAColour.normHex_mk3 n1 n2 n3 h1 h2 h3)
          (hexPair_digitChar n1 h1) (hexPair_digitChar n2 h2) (hexPair_digitChar n3 h3)]
    dsimp only
    rw [LAColour.getHEX_bytes3 _ n1 n2 n3 rfl rfl rfl]
    exact ⟨_, rfl⟩
  · intro st n1 n2 n3 n4 h1 h2 h3 h4
    rw [LAColour.set_str_HEXLONG,
        LAColour.setHEX_norm8 st _ _ _ _ _ _ _ _ _ n1 n2 n3 n4
          (LAColour.normHex_mk4 n1 n2 n3 n4 h1 h2 h3 h4)
          (hexPair_digitChar n1 h1) (hexPair_digitChar n2 h2) (hexPair_digitChar n3 h3)
          (hexPair_digitChar n4 h4)]
    dsimp only
    rw [LAColour.getHEX_bytes4 _ n1 n2 n3 n4 rfl rfl rfl rfl]
    exact ⟨_, rfl⟩

/-- Claim C1, counterexample: the round trip fails beyond the claimed 1e-6
tolerance in CMYK (set of c 50, m 20, y 30, k 0 re-reads as C 37, M 0, Y 12
with no K at all) and in HSV at a valid degenerate input (set of hue 30 with
saturation 0 re-reads hue 0). -/
theorem C1_roundtrip_fails_cmyk_hsv :
    (LAColour.set st0 (.nums [50, 20, 30, 0, 1]) .CMYK =
      some (⟨1/2, 4/5, 7/10, 1, Colour.RGB, true⟩, .list [37, 0, 12, 1]) ∧
      |(50 : ℚ) - 37| > 1e-6) ∧
    (LAColour.set st0 (.nums [30, 0, 50, 1]) .HSV =
      some (⟨1/2, 1/2, 1/2, 1, Colour.RGB, true⟩, .list [0, 0, 50, 1]) ∧
      |(30 : ℚ) - 0| > 1e-6) := by
  constructor
  · constructor
    · rw [LAColour.set_nums_CMYK]
      have hsetc : LAColour.setCMYK st0 50 20 30 0 1 = ⟨1/2, 4/5, 7/10, 1, Colour.RGB, true⟩ := by
        simp only [LAColour.setCMYK, st0]
        norm_num
      rw [hsetc]
      have hgetc : LAColour.getCMYK ⟨1/2, 4/5, 7/10, 1, Colour.RGB, true⟩ =
          some (.list [37, 0, 12, 1]) := by
        simp only [LAColour.getCMYK]
        norm_num [max_def, pyInt]
      rw [hgetc]
    · norm_num
  · constructor
    · rw [LAColour.set_nums_HSV]
      have hsec : LAColour.hsvSector (30 : ℚ) = some .s0 := by
        unfold LAColour.hsvSector
        norm_num
      have hset : LAColour.setHSV st0 30 0 50 1 = some ⟨1/2, 1/2, 1/2, 1, Colour.RGB, true⟩ := by
        simp only [LAColour.setHSV, hsec]
        norm_num [pyMod, st0]
      rw [hset]
      dsimp only
      have hget : LAColour.getHSV ⟨1/2, 1/2, 1/2, 1, Colour.RGB, true⟩ = .list [0, 0, 50, 1] := by
        simp only [LAColour.getHSV, max_self, min_self]
        norm_num [pyInt]
      rw [hget]
    · norm_num

/-- Claim C1, witness: the amended round trip applied at concrete inputs in
each of the four guaranteed spaces. -/
theorem C1_same_space_roundtrip_witness :
    (∃ st', LAColour.set st0 (.nums [1/2, 0, 1, 1]) .RGB =
      some (st', .list [1/2, 0, 1, 1])) ∧
    (∃ st', LAColour.set st0 (.nums [(255 : ℕ), (128 : ℕ), (0 : ℕ), 1]) .RGBFull =
      some (st', .list [(255 : ℕ), (128 : ℕ), (0 : ℕ), 1])) ∧
    (∃ st', LAColour.set st0 (.str (String.mk (pyHex2 1 ++ pyHex2 2 ++ pyHex2 3))) .HEX =
      some (st', .str (String.mk (pyHex2 1 ++ pyHex2 2 ++ pyHex2 3)))) ∧
    (∃ st', LAColour.set st0
        (.str (String.mk (pyHex2 1 ++ pyHex2 2 ++ pyHex2 3 ++ pyHex2 4))) .HEXLONG =
      some (st', .str (String.mk (pyHex2 1 ++ pyHex2 2 ++ pyHex2 3 ++ pyHex2 4)))) :=
  ⟨C1_same_space_roundtrip.1 st0 (1/2) 0 1 1 (by norm_num) (by norm_num) (by norm_num) (by norm_num)
     (by norm_num) (by norm_num) (by norm_num) (by norm_num),
   C1_same_space_roundtrip.2.1 st0 255 128 0 1 (by norm_num) (by norm_num) (by norm_num)
     (by norm_num) (by norm_num),
   C1_same_space_roundtrip.2.2.1 st0 1 2 3 (by norm_num) (by norm_num) (by norm_num),
   C1_same_space_roundtrip.2.2.2 st0 1 2 3 4 (by norm_num) (by norm_num) (by norm_num) (by norm_num)⟩
